import Mathlib

/-!
Verification of the family-game-library data model and client logic.

This file is a shallow embedding, in Lean 4, of the pure logic of the
repository's services and hooks:

* `src/services/userPreferences.ts` — the per-user per-game preference
  state machine (`setReaction`, `toggleFavorite`), modelled per
  (user, game) cell: Firestore stores one document per composite key
  `userId_gameId`, so a cell is `Option PrefData` (`none` = no document).
  Timestamps (`updatedAt`) are not modelled.
* `src/hooks/useUserPreferences.ts` — the `likeGame` toggle wrapper.
* `src/services/games.ts` — `filterGames`, `getUniqueCategories`,
  `getGamesByIds`, `findGameByBggId`, `getOrCreateGame`.
* `src/services/ownership.ts` — the ownership/game join
  (`getOwnedGames`, `getOwnedGamesByHousehold`), `householdOwnsGame`,
  `addOwnership`.
* `src/hooks/useGames.ts` — `addGameWithOwnership`.
* `src/pages/GameNightPage.tsx` — the picker pool (`filteredGames`
  memo), `handleQuickPick`, `handleSpin`.

Firestore collections are modelled as Lean lists in collection order;
`Date`/`Timestamp` fields are omitted (no claim depends on them).
JavaScript truthiness tests on optional strings/numbers are modelled
explicitly (`""` and `0` are falsy).  JavaScript string operations are
modelled on the underlying character lists; `localeCompare` and the
default `Array.prototype.sort` comparator are modelled as code-unit
order, and the stable JS sort as a structural insertion sort — the
claims below depend on sort output only up to membership or pairwise
order, never on tie-breaking.
-/

namespace FGL

/-- A reaction value: the TS union 'like' | 'dislike' (null is `Option.none`). -/
inductive Reaction
  | like
  | dislike
deriving DecidableEq, Repr, Fintype

/-- Stored fields of a `UserGamePreference` document for one (user, game)
cell: the `reaction` tri-state and the `isFavorite` flag.  The ids and the
timestamp carried by the TS record are determined by the cell / omitted. -/
structure PrefData where
  reaction : Option Reaction
  isFavorite : Bool
deriving DecidableEq, Repr, Fintype

/-- `userPreferencesService.setReaction` (userPreferences.ts:54-104) acting
on one (user, game) cell.  It reads the existing document to preserve
`isFavorite` (cleared when disliking), then deletes the document when the
new state is (null reaction, not favorite) and upserts it otherwise. -/
def setReaction (existing : Option PrefData) (reaction : Option Reaction) :
    Option PrefData :=
  let isFavorite :=
    match existing with
    | none => false
    | some e => if reaction = some Reaction.dislike then false else e.isFavorite
  if reaction = none ∧ isFavorite = false then
    none
  else
    some ⟨reaction, isFavorite⟩

/-- `userPreferencesService.toggleFavorite` (userPreferences.ts:107-153)
acting on one (user, game) cell: flip the favorite flag, delete the
document when the result is (null reaction, not favorite), upsert otherwise. -/
def toggleFavorite (existing : Option PrefData) : Option PrefData :=
  let reaction :=
    match existing with
    | none => none
    | some e => e.reaction
  let isFavorite := !(match existing with
    | none => false
    | some e => e.isFavorite)
  if isFavorite = false ∧ reaction = none then
    none
  else
    some ⟨reaction, isFavorite⟩

/-- The reaction of a cell as the `useUserPreferences` hook reads it:
`prev.get(gameId)?.reaction || null`. -/
def reactionOf (cell : Option PrefData) : Option Reaction :=
  match cell with
  | none => none
  | some e => e.reaction

/-- The favorite flag of a cell (`false` when there is no document). -/
def favOf (cell : Option PrefData) : Bool :=
  match cell with
  | none => false
  | some e => e.isFavorite

/-- `likeGame` from `useUserPreferences` (hook, lines 51-81): toggle-off when
the current reaction is already 'like', then delegate to `setReaction`. -/
def likeGame (current : Option PrefData) : Option PrefData :=
  let currentReaction := reactionOf current
  let newReaction :=
    if currentReaction = some Reaction.like then none else some Reaction.like
  setReaction current newReaction

/-- One mutation of the preference cell: either a `setReaction` call with a
given reaction argument, or a `toggleFavorite` call. -/
inductive PrefOp
  | setR : Option Reaction → PrefOp
  | toggleFav : PrefOp
deriving DecidableEq, Repr, Fintype

/-- Apply one preference operation to a cell. -/
def applyPrefOp (op : PrefOp) (cell : Option PrefData) : Option PrefData :=
  match op with
  | PrefOp.setR r => setReaction cell r
  | PrefOp.toggleFav => toggleFavorite cell

/-- Apply a sequence of preference operations, oldest first. -/
def applyPrefOps (ops : List PrefOp) (cell : Option PrefData) : Option PrefData :=
  match ops with
  | [] => cell
  | op :: rest => applyPrefOps rest (applyPrefOp op cell)

theorem applyPrefOp_ne_empty (op : PrefOp) (cell : Option PrefData) :
    applyPrefOp op cell ≠ some ⟨none, false⟩ := by
  revert op cell
  decide

/-- C2: after any `setReaction` or `toggleFavorite` operation — and hence at
the end of every non-empty sequence of such operations, from any starting
cell — the stored preference cell is never the "neutral and not favorited"
record `some ⟨none, false⟩`: that state is realised only by deleting the
document, never by writing it. -/
theorem pref_cell_never_empty_record (cell : Option PrefData) (op : PrefOp)
    (ops : List PrefOp) :
    applyPrefOps (op :: ops) cell ≠ some ⟨none, false⟩ := by
  induction ops generalizing cell op with
  | nil => exact applyPrefOp_ne_empty op cell
  | cons op2 rest ih => exact ih (applyPrefOp op cell) op2

/-- C3 counterexample: starting from a stored 'dislike' (not favorited)
preference, performing the like action twice does not return the cell to its
pre-like state — it deletes the record instead (like overwrites the dislike,
and the second like toggles off to neutral). -/
theorem like_twice_not_identity_on_dislike :
    likeGame (likeGame (some ⟨some Reaction.dislike, false⟩)) = none ∧
      likeGame (likeGame (some ⟨some Reaction.dislike, false⟩)) ≠
        some ⟨some Reaction.dislike, false⟩ := by
  decide

/-- C3 (amended): setting the reaction to 'like' when 'like' is already the
stored reaction yields a neutral reaction (toggle-off), and performing the
like action twice in a row returns the cell to its pre-like state whenever
that state is a storable one (not the never-persisted `some ⟨none, false⟩`)
whose reaction is not 'dislike'; in particular, starting from no record,
the record is absent from storage afterwards. -/
theorem like_toggle_semantics (cell : Option PrefData) :
    (reactionOf cell = some Reaction.like →
      reactionOf (likeGame cell) = none) ∧
    (cell ≠ some ⟨none, false⟩ → reactionOf cell ≠ some Reaction.dislike →
      likeGame (likeGame cell) = cell) := by
  revert cell
  decide

theorem like_toggle_semantics_witness :
    (some ⟨some Reaction.like, true⟩ : Option PrefData) ≠ some ⟨none, false⟩ ∧
    reactionOf (some ⟨some Reaction.like, true⟩) ≠ some Reaction.dislike ∧
    likeGame (likeGame (some ⟨some Reaction.like, true⟩)) =
      some ⟨some Reaction.like, true⟩ :=
  ⟨by decide, by decide,
    (like_toggle_semantics (some ⟨some Reaction.like, true⟩)).2
      (by decide) (by decide)⟩

/-- C7: `setReaction` leaves the stored favorite flag unchanged when the new
reaction is 'like' or null, and forces it to `false` when the new reaction
is 'dislike' (even when it was previously `true`). -/
theorem setReaction_favorite_frame (cell : Option PrefData)
    (r : Option Reaction) :
    (r ≠ some Reaction.dislike → favOf (setReaction cell r) = favOf cell) ∧
    (r = some Reaction.dislike → favOf (setReaction cell r) = false) := by
  revert cell r
  decide

theorem setReaction_favorite_frame_witness :
    ((some Reaction.like : Option Reaction) ≠ some Reaction.dislike ∧
      favOf (setReaction (some ⟨some Reaction.dislike, true⟩)
        (some Reaction.like)) = favOf (some ⟨some Reaction.dislike, true⟩)) ∧
    favOf (setReaction (some ⟨some Reaction.like, true⟩)
      (some Reaction.dislike)) = false :=
  ⟨⟨by decide,
    (setReaction_favorite_frame (some ⟨some Reaction.dislike, true⟩)
      (some Reaction.like)).1 (by decide)⟩,
    (setReaction_favorite_frame (some ⟨some Reaction.like, true⟩)
      (some Reaction.dislike)).2 rfl⟩

/-- A `games` collection document (types/index.ts `Game`); `createdAt` is
omitted. -/
structure Game where
  id : String
  name : String
  description : Option String
  minPlayers : Nat
  maxPlayers : Nat
  playTimeMinutes : Option Nat
  yearPublished : Option Nat
  bggId : Option String
  imageUrl : Option String
  categories : Option (List String)
  mechanics : Option (List String)
  createdBy : String
deriving DecidableEq, Repr

/-- An `ownership` collection document (types/index.ts `Ownership`);
`addedAt` is omitted. -/
structure Ownership where
  id : String
  gameId : String
  householdId : String
  householdName : String
  addedBy : String
  notes : Option String
deriving DecidableEq, Repr

/-- The derived `OwnedGame` view record (types/index.ts): the TS type
spreads the game's fields and adds `ownership` and `ownerCount`; here the
game's fields are kept nested under `game`. -/
structure OwnedGame where
  game : Game
  ownership : Ownership
  ownerCount : Nat
deriving DecidableEq, Repr

/-- JS truthiness for an optional string: `undefined` and `""` are falsy. -/
def truthyStr (o : Option String) : Option String :=
  match o with
  | none => none
  | some s => if s = "" then none else some s

/-- `needle` is a leading segment of `hay` (character lists). -/
def strStartsWith : List Char → List Char → Bool
  | [], _ => true
  | _ :: _, [] => false
  | a :: as, b :: bs => a == b && strStartsWith as bs

/-- JS `hay.includes(needle)` on character lists: `needle` occurs
contiguously somewhere in `hay`. -/
def strContainsList (needle : List Char) : List Char → Bool
  | [] => strStartsWith needle []
  | c :: t => strStartsWith needle (c :: t) || strContainsList needle t

/-- JS `s.toLowerCase()`, modelled per character. -/
def lowerChars (s : String) : List Char :=
  s.data.map Char.toLower

/-- Code-unit lexicographic order on character lists, the comparator
underlying the default JS `Array.prototype.sort` on strings. -/
def charListLe : List Char → List Char → Bool
  | [], _ => true
  | _ :: _, [] => false
  | a :: as, b :: bs =>
    if a.toNat < b.toNat then true
    else if a.toNat = b.toNat then charListLe as bs
    else false

/-- Code-unit order on strings. -/
def strLe (a b : String) : Bool :=
  charListLe a.data b.data

/-- Insert an element into a list ordered by `le` (helper for `sortLe`). -/
def insertLe (le : α → α → Bool) (x : α) : List α → List α
  | [] => [x]
  | y :: ys => if le x y then x :: y :: ys else y :: insertLe le x ys

/-- Structural insertion sort by a Boolean comparison; models the JS
`Array.prototype.sort` calls (the claims use its output only up to
membership or pairwise order). -/
def sortLe (le : α → α → Bool) : List α → List α
  | [] => []
  | x :: xs => insertLe le x (sortLe le xs)

/-- First-occurrence deduplication by a string key with an accumulator of
already-seen keys; models both the JS `new Set(...)` spread (with the
identity key) and the keep-first `Map` loop of the game-night picker. -/
def dedupBy (key : α → String) (seen : List String) : List α → List α
  | [] => []
  | x :: xs =>
    if seen.contains (key x) then dedupBy key seen xs
    else x :: dedupBy key (key x :: seen) xs

/-- The client-side filter specification (types/index.ts `GameFilters`). -/
structure GameFilters where
  searchQuery : String
  playerCount : Option Nat
  householdId : Option String
  categories : Option (List String)
  maxPlayTime : Option Nat
deriving DecidableEq, Repr

/-- The predicate body of `gamesService.filterGames` (games.ts:145-187) for
one `OwnedGame`.  Each dimension guards on JS truthiness of its filter
field (so `""` and `0` disable a dimension), and the play-time dimension
additionally guards on truthiness of the game's own `playTimeMinutes`. -/
def matchesFilters (filters : GameFilters) (game : OwnedGame) : Bool :=
  (if filters.searchQuery = "" then true
   else
     let search := lowerChars filters.searchQuery
     let matchesName := strContainsList search (lowerChars game.game.name)
     let matchesDescription :=
       match game.game.description with
       | some d => strContainsList search (lowerChars d)
       | none => false
     matchesName || matchesDescription) &&
  (match filters.playerCount with
   | none => true
   | some pc =>
     if pc = 0 then true
     else !(pc < game.game.minPlayers || pc > game.game.maxPlayers)) &&
  (match filters.householdId with
   | none => true
   | some h =>
     if h = "" then true else game.ownership.householdId == h) &&
  (match filters.categories with
   | none => true
   | some cats =>
     if cats.length = 0 then true
     else cats.any (fun cat =>
       match game.game.categories with
       | some gcats => gcats.contains cat
       | none => false)) &&
  (match filters.maxPlayTime with
   | none => true
   | some m =>
     if m = 0 then true
     else
       match game.game.playTimeMinutes with
       | none => true
       | some p => if p = 0 then true else !(p > m))

/-- `gamesService.filterGames` (games.ts:145-187): a single in-memory
`Array.prototype.filter` pass with the conjunction of all dimensions. -/
def filterGames (games : List OwnedGame) (filters : GameFilters) :
    List OwnedGame :=
  games.filter (matchesFilters filters)

/-- `gamesService.getUniqueCategories` (games.ts:190-196): collect every
category of every game into an insertion-ordered `Set` (games without a
category list contribute nothing), then sort the collected values. -/
def getUniqueCategories (games : List Game) : List String :=
  sortLe strLe (dedupBy (fun s => s) []
    (games.flatMap (fun g =>
      match g.categories with
      | some cats => cats
      | none => [])))

theorem perm_insertLe (le : α → α → Bool) (x : α) (l : List α) :
    (insertLe le x l).Perm (x :: l) := by
  induction l with
  | nil => exact List.Perm.refl _
  | cons y ys ih =>
    by_cases h : le x y = true
    · simp [insertLe, h]
    · simp only [insertLe, h, if_neg, Bool.not_eq_true]
      exact (List.Perm.cons y ih).trans (List.Perm.swap x y ys)

theorem perm_sortLe (le : α → α → Bool) (l : List α) :
    (sortLe le l).Perm l := by
  induction l with
  | nil => exact List.Perm.refl _
  | cons x xs ih =>
    exact (perm_insertLe le x (sortLe le xs)).trans (List.Perm.cons x ih)

theorem mem_sortLe (le : α → α → Bool) (l : List α) (x : α) :
    x ∈ sortLe le l ↔ x ∈ l :=
  (perm_sortLe le l).mem_iff

theorem pairwise_insertLe (le : α → α → Bool)
    (htot : ∀ a b, le a b = true ∨ le b a = true)
    (htrans : ∀ a b c, le a b = true → le b c = true → le a c = true)
    (x : α) (l : List α) (h : l.Pairwise (fun a b => le a b = true)) :
    (insertLe le x l).Pairwise (fun a b => le a b = true) := by
  induction l with
  | nil => simp [insertLe]
  | cons y ys ih =>
    rcases List.pairwise_cons.mp h with ⟨hy, hys⟩
    by_cases hxy : le x y = true
    · simp only [insertLe, hxy, if_pos]
      refine List.pairwise_cons.mpr ⟨?_, h⟩
      intro z hz
      rcases List.mem_cons.mp hz with rfl | hz'
      · exact hxy
      · exact htrans x y z hxy (hy z hz')
    · simp only [insertLe, hxy, if_neg, Bool.not_eq_true]
      refine List.pairwise_cons.mpr ⟨?_, ih hys⟩
      intro z hz
      rcases List.mem_cons.mp ((perm_insertLe le x ys).mem_iff.mp hz) with rfl | h1
      · rcases htot z y with h2 | h2
        · exact absurd h2 hxy
        · exact h2
      · exact hy z h1

theorem pairwise_sortLe (le : α → α → Bool)
    (htot : ∀ a b, le a b = true ∨ le b a = true)
    (htrans : ∀ a b c, le a b = true → le b c = true → le a c = true)
    (l : List α) :
    (sortLe le l).Pairwise (fun a b => le a b = true) := by
  induction l with
  | nil => simp [sortLe]
  | cons x xs ih => exact pairwise_insertLe le htot htrans x (sortLe le xs) ih

theorem charListLe_total (a b : List Char) :
    charListLe a b = true ∨ charListLe b a = true := by
  induction a generalizing b with
  | nil => left; rfl
  | cons c cs ih =>
    cases b with
    | nil => right; rfl
    | cons d ds =>
      rcases Nat.lt_trichotomy c.toNat d.toNat with h | h | h
      · left; simp [charListLe, h]
      · rcases ih ds with h2 | h2
        · left; simp [charListLe, h, Nat.lt_irrefl, h2]
        · right; simp [charListLe, h.symm, Nat.lt_irrefl, h2]
      · right; simp [charListLe, h]

theorem charListLe_trans (a b c : List Char) (hab : charListLe a b = true)
    (hbc : charListLe b c = true) : charListLe a c = true := by
  induction a generalizing b c with
  | nil => rfl
  | cons x xs ih =>
    cases b with
    | nil => simp [charListLe] at hab
    | cons y ys =>
      cases c with
      | nil => simp [charListLe] at hbc
      | cons z zs =>
        simp only [charListLe] at hab hbc ⊢
        split at hab
        · rename_i hxy
          split at hbc
          · rename_i hyz
            simp [Nat.lt_trans hxy hyz]
          · split at hbc
            · rename_i hyz
              simp [hyz ▸ hxy]
            · exact absurd hbc (by simp)
        · split at hab
          · rename_i hxy
            split at hbc
            · rename_i hyz
              simp [hxy ▸ hyz]
            · split at hbc
              · rename_i hyz
                rw [if_neg (hxy ▸ hyz ▸ Nat.lt_irrefl _), if_pos (hxy.trans hyz)]
                exact ih ys zs hab hbc
              · exact absurd hbc (by simp)
          · exact absurd hab (by simp)

theorem strLe_total (a b : String) : strLe a b = true ∨ strLe b a = true :=
  charListLe_total a.data b.data

theorem strLe_trans (a b c : String) (hab : strLe a b = true)
    (hbc : strLe b c = true) : strLe a c = true :=
  charListLe_trans a.data b.data c.data hab hbc

theorem mem_dedupBy_id (seen : List String) (l : List String) (y : String) :
    y ∈ dedupBy (fun s => s) seen l ↔ y ∈ l ∧ y ∉ seen := by
  induction l generalizing seen with
  | nil => simp [dedupBy]
  | cons x xs ih =>
    by_cases hc : seen.contains x = true
    · have hx : x ∈ seen := List.elem_iff.mp hc
      simp only [dedupBy, hc, if_pos, ih, List.mem_cons]
      constructor
      · rintro ⟨h1, h2⟩; exact ⟨Or.inr h1, h2⟩
      · rintro ⟨h1 | h1, h2⟩
        · exact absurd (h1 ▸ hx) h2
        · exact ⟨h1, h2⟩
    · have hx : x ∉ seen := fun h => hc (List.elem_iff.mpr h)
      simp only [dedupBy, hc, if_neg, Bool.not_eq_true, List.mem_cons, ih,
        List.mem_cons, not_or]
      constructor
      · rintro (rfl | ⟨h1, h2, h3⟩)
        · exact ⟨Or.inl rfl, hx⟩
        · exact ⟨Or.inr h1, h3⟩
      · rintro ⟨rfl | h1, h2⟩
        · exact Or.inl rfl
        · by_cases hxy : y = x
          · exact Or.inl hxy
          · exact Or.inr ⟨h1, hxy, h2⟩

theorem mem_map_key_dedupBy (key : α → String) (seen : List String)
    (l : List α) (y : String) :
    y ∈ (dedupBy key seen l).map key ↔ y ∈ l.map key ∧ y ∉ seen := by
  induction l generalizing seen with
  | nil => simp [dedupBy]
  | cons x xs ih =>
    by_cases hc : seen.contains (key x) = true
    · have hx : key x ∈ seen := List.elem_iff.mp hc
      simp only [dedupBy, hc, if_pos, ih, List.map_cons, List.mem_cons]
      constructor
      · rintro ⟨h1, h2⟩; exact ⟨Or.inr h1, h2⟩
      · rintro ⟨h1 | h1, h2⟩
        · exact absurd (h1 ▸ hx) h2
        · exact ⟨h1, h2⟩
    · have hx : key x ∉ seen := fun h => hc (List.elem_iff.mpr h)
      simp only [dedupBy, hc, if_neg, Bool.not_eq_true, List.map_cons,
        List.mem_cons, ih, not_or]
      constructor
      · rintro (rfl | ⟨h1, h2, h3⟩)
        · exact ⟨Or.inl rfl, hx⟩
        · exact ⟨Or.inr h1, h3⟩
      · rintro ⟨rfl | h1, h2⟩
        · exact Or.inl rfl
        · by_cases hxy : y = key x
          · exact Or.inl hxy
          · exact Or.inr ⟨h1, hxy, h2⟩

theorem nodup_map_key_dedupBy (key : α → String) (seen : List String)
    (l : List α) : ((dedupBy key seen l).map key).Nodup := by
  induction l generalizing seen with
  | nil => simp [dedupBy]
  | cons x xs ih =>
    by_cases hc : seen.contains (key x) = true
    · simpa only [dedupBy, hc, if_pos] using ih seen
    · simp only [dedupBy, hc, if_neg, Bool.not_eq_true, List.map_cons,
        List.nodup_cons]
      refine ⟨?_, ih (key x :: seen)⟩
      intro hmem
      exact ((mem_map_key_dedupBy key (key x :: seen) xs (key x)).mp hmem).2
        (List.mem_cons_self _ _)

theorem key_not_seen_of_mem_dedupBy (key : α → String) (seen : List String)
    (l : List α) (x : α) (h : x ∈ dedupBy key seen l) : key x ∉ seen := by
  induction l generalizing seen with
  | nil => simp [dedupBy] at h
  | cons z zs ih =>
    by_cases hc : seen.contains (key z) = true
    · rw [dedupBy, if_pos hc] at h
      exact ih seen h
    · rw [dedupBy, if_neg (by simpa using hc)] at h
      rcases List.mem_cons.mp h with rfl | h1
      · exact fun hmem => hc (List.elem_iff.mpr hmem)
      · intro hmem
        exact ih (key z :: seen) h1 (List.mem_cons_of_mem _ hmem)

theorem find?_of_mem_dedupBy (key : α → String) (seen : List String)
    (l : List α) (x : α) (h : x ∈ dedupBy key seen l) :
    l.find? (fun y => key y == key x) = some x := by
  induction l generalizing seen with
  | nil => simp [dedupBy] at h
  | cons z zs ih =>
    by_cases hc : seen.contains (key z) = true
    · rw [dedupBy, if_pos hc] at h
      have hxseen : key x ∉ seen := key_not_seen_of_mem_dedupBy key seen zs x h
      have hzx : (key z == key x) = false := by
        simp only [beq_eq_false_iff_ne, ne_eq]
        intro hzx
        exact hxseen (hzx ▸ List.elem_iff.mp hc)
      rw [List.find?_cons, hzx]
      exact ih seen h
    · rw [dedupBy, if_neg (by simpa using hc)] at h
      rcases List.mem_cons.mp h with rfl | h1
      · rw [List.find?_cons, beq_self_eq_true]
      · have hxseen : key x ∉ key z :: seen :=
          key_not_seen_of_mem_dedupBy key (key z :: seen) zs x h1
        have hzx : (key z == key x) = false := by
          simp only [beq_eq_false_iff_ne, ne_eq]
          intro hzx
          exact hxseen (hzx ▸ List.mem_cons_self _ _)
        rw [List.find?_cons, hzx]
        exact ih (key z :: seen) h1

/-- C6: `filterGames` keeps a subsequence of the input in the same relative
order (it is a single stable `Array.prototype.filter` pass, stated here as
`List.Sublist`), and it is idempotent: filtering an already-filtered list by
the same filter spec yields the same list.  Purity holds by construction
(it is a function of its two arguments). -/
theorem filterGames_sublist_and_idem (games : List OwnedGame)
    (filters : GameFilters) :
    (filterGames games filters).Sublist games ∧
      filterGames (filterGames games filters) filters =
        filterGames games filters := by
  constructor
  · exact List.filter_sublist games
  · simp only [filterGames]
    rw [List.filter_filter]
    refine List.filter_congr ?_
    intro x _
    rw [Bool.and_self]

/-- C10: falsy filter fields disable their dimension in `filterGames`:
a `playerCount` of 0 and a `maxPlayTime` of 0 impose no constraint, an
empty search string (with no other filters set) passes every game, and a
game whose recorded `playTimeMinutes` is 0 passes any play-time ceiling. -/
theorem matchesFilters_falsy_semantics (filters : GameFilters)
    (game : OwnedGame) :
    (matchesFilters (GameFilters.mk filters.searchQuery (some 0)
        filters.householdId filters.categories filters.maxPlayTime) game =
      matchesFilters (GameFilters.mk filters.searchQuery none
        filters.householdId filters.categories filters.maxPlayTime) game) ∧
    (matchesFilters (GameFilters.mk filters.searchQuery filters.playerCount
        filters.householdId filters.categories (some 0)) game =
      matchesFilters (GameFilters.mk filters.searchQuery filters.playerCount
        filters.householdId filters.categories none) game) ∧
    (matchesFilters (GameFilters.mk "" none none none none) game = true) ∧
    (game.game.playTimeMinutes = some 0 →
      matchesFilters filters game =
        matchesFilters (GameFilters.mk filters.searchQuery
          filters.playerCount filters.householdId filters.categories none)
          game) := by
  refine ⟨rfl, rfl, ?_, ?_⟩
  · simp [matchesFilters]
  · intro hp
    rcases filters with ⟨sq, pc, hh, cats, mpt⟩
    cases mpt with
    | none => rfl
    | some m =>
      simp only [matchesFilters, hp]
      by_cases hm : m = 0 <;> simp [hm]

theorem matchesFilters_falsy_semantics_witness :
    (⟨⟨"g0", "Chess", none, 2, 2, some 0, none, none, none, none, none,
        "u0"⟩, ⟨"o0", "g0", "h0", "H", "u0", none⟩, 1⟩ : OwnedGame).game.playTimeMinutes
        = some 0 ∧
    matchesFilters (GameFilters.mk "" none none none (some 5))
        ⟨⟨"g0", "Chess", none, 2, 2, some 0, none, none, none, none, none,
          "u0"⟩, ⟨"o0", "g0", "h0", "H", "u0", none⟩, 1⟩ =
      matchesFilters (GameFilters.mk "" none none none none)
        ⟨⟨"g0", "Chess", none, 2, 2, some 0, none, none, none, none, none,
          "u0"⟩, ⟨"o0", "g0", "h0", "H", "u0", none⟩, 1⟩ :=
  ⟨rfl,
    (matchesFilters_falsy_semantics (GameFilters.mk "" none none none
      (some 5)) _).2.2.2 rfl⟩

/-- C8 counterexample: `getUniqueCategories` does not exclude empty tags —
a game whose category list contains the empty string contributes the empty
string to the returned list. -/
theorem getUniqueCategories_includes_empty_tag :
    getUniqueCategories [⟨"g1", "X", none, 1, 2, none, none, none, none,
        some ["", "Strategy"], none, "u"⟩] = ["", "Strategy"] ∧
      "" ∈ getUniqueCategories [⟨"g1", "X", none, 1, 2, none, none, none,
        none, some ["", "Strategy"], none, "u"⟩] := by
  constructor
  · rfl
  · decide

/-- C8 (amended): `getUniqueCategories` returns the deduplicated,
code-unit-alphabetically sorted list of exactly the category strings
appearing across the input games' category lists — including the empty
string whenever some game lists it (the code performs no emptiness
filtering) — and games with no category list contribute nothing. -/
theorem getUniqueCategories_spec (games : List Game) :
    (∀ c, c ∈ getUniqueCategories games ↔
      ∃ g ∈ games, c ∈ (match g.categories with
        | some cats => cats
        | none => ([] : List String))) ∧
    (getUniqueCategories games).Pairwise (fun a b => strLe a b = true) ∧
    (getUniqueCategories games).Nodup := by
  refine ⟨?_, ?_, ?_⟩
  · intro c
    rw [getUniqueCategories, mem_sortLe, mem_dedupBy_id]
    simp [List.mem_flatMap]
  · exact pairwise_sortLe strLe strLe_total strLe_trans _
  · rw [getUniqueCategories]
    refine (perm_sortLe strLe _).nodup_iff.mpr ?_
    have h := nodup_map_key_dedupBy (fun s => s) []
      (games.flatMap (fun g =>
        match g.categories with
        | some cats => cats
        | none => []))
    simpa using h

theorem getUniqueCategories_spec_witness :
    "Strategy" ∈ getUniqueCategories [⟨"g2", "Y", none, 1, 2, none, none,
      none, none, some ["Strategy"], none, "u"⟩] :=
  (getUniqueCategories_spec [⟨"g2", "Y", none, 1, 2, none, none, none, none,
    some ["Strategy"], none, "u"⟩]).1 "Strategy" |>.mpr
    ⟨⟨"g2", "Y", none, 1, 2, none, none, none, none, some ["Strategy"],
      none, "u"⟩, by decide, by decide⟩

/-- The per-game tally of ownership rows, as built by the `ownerCountMap`
loop of `getOwnedGames` (ownership.ts:157-161): the number of ownership
rows whose `gameId` equals `gid`. -/
def rowCount (os : List Ownership) (gid : String) : Nat :=
  (os.filter (fun o => o.gameId == gid)).length

/-- Lookup in a JS `Map` built from a list of (id, game) entries: the last
entry for a key wins. -/
def findGameInMap (gs : List Game) (gid : String) : Option Game :=
  gs.reverse.find? (fun g => g.id == gid)

/-- `gamesService.getGamesByIds` (games.ts:50-75): batch-fetch the games
whose ids are in `ids`, chunking the id set into ≤30-element `in` queries
and merging the results.  Since the requested ids are deduplicated, each
matching document is returned exactly once, so the merged result is the
membership filter over the collection. -/
def getGamesByIds (store : List Game) (ids : List String) : List Game :=
  store.filter (fun g => ids.contains g.id)

/-- The `(a, b) => a.name.localeCompare(b.name)` comparator of the
owned-game sorts, modelled as code-unit order on the names. -/
def nameLe (a b : OwnedGame) : Bool :=
  charListLe a.game.name.data b.game.name.data

/-- The join loop shared by `getOwnedGames` and `getOwnedGamesByHousehold`
(ownership.ts:163-174 and 207-218): one `OwnedGame` per ownership row whose
game resolves in the fetched map, annotated with the count-map entry for
its game id (`|| 1` when the map has no entry); unresolvable rows are
silently dropped. -/
def joinOwnedGames (ownerships : List Ownership) (fetched : List Game)
    (counts : String → Nat) : List OwnedGame :=
  ownerships.filterMap (fun o =>
    (findGameInMap fetched o.gameId).map (fun g =>
      ⟨g, o, if counts o.gameId = 0 then 1 else counts o.gameId⟩))

/-- `ownershipService.getOwnedGames` (ownership.ts:143-180): all ownership
rows joined to their games, counts tallied over the whole ownership
collection, sorted by game name. -/
def getOwnedGames (os : List Ownership) (store : List Game) :
    List OwnedGame :=
  if os.length = 0 then []
  else
    sortLe nameLe (joinOwnedGames os
      (getGamesByIds store (dedupBy (fun s => s) []
        (os.map (fun o => o.gameId))))
      (rowCount os))

/-- `ownershipService.getOwnershipsByHousehold` (ownership.ts:67-77). -/
def getOwnershipsByHousehold (os : List Ownership) (householdId : String) :
    List Ownership :=
  os.filter (fun o => o.householdId == householdId)

/-- `ownershipService.getOwnedGamesByHousehold` (ownership.ts:183-224): the
household's ownership rows joined to their games, with counts tallied over
the *global* ownership collection restricted to this household's game ids. -/
def getOwnedGamesByHousehold (os : List Ownership) (store : List Game)
    (householdId : String) : List OwnedGame :=
  if (getOwnershipsByHousehold os householdId).length = 0 then []
  else
    sortLe nameLe (joinOwnedGames (getOwnershipsByHousehold os householdId)
      (getGamesByIds store (dedupBy (fun s => s) []
        ((getOwnershipsByHousehold os householdId).map (fun o => o.gameId))))
      (fun gid => (os.filter (fun o =>
        (dedupBy (fun s => s) []
          ((getOwnershipsByHousehold os householdId).map
            (fun o2 => o2.gameId))).contains o.gameId &&
        o.gameId == gid)).length))

/-- The quantity named by the specification's owner-count property: the
number of *distinct household identifiers* having an ownership row that
references the game. -/
def distinctOwnerCount (os : List Ownership) (gid : String) : Nat :=
  (dedupBy (fun s => s) []
    ((os.filter (fun o => o.gameId == gid)).map
      (fun o => o.householdId))).length

theorem dedupBy_id_eq_self (l : List String) (seen : List String)
    (hnd : l.Nodup) (hdisj : ∀ x ∈ l, x ∉ seen) :
    dedupBy (fun s => s) seen l = l := by
  induction l generalizing seen with
  | nil => rfl
  | cons x xs ih =>
    rcases List.nodup_cons.mp hnd with ⟨hx, hxs⟩
    have hc : seen.contains x = false := by
      rw [Bool.eq_false_iff]
      intro hcc
      exact hdisj x (List.mem_cons_self _ _) (List.elem_iff.mp hcc)
    rw [dedupBy, hc]
    simp only [Bool.false_eq_true, if_neg, not_false_iff]
    rw [ih (x :: seen) hxs]
    intro y hy
    rw [List.mem_cons, not_or]
    exact ⟨fun hyx => hx (hyx ▸ hy), hdisj y (List.mem_cons_of_mem _ hy)⟩

theorem rowCount_eq_distinctOwnerCount (os : List Ownership) (gid : String)
    (hnd : (os.map (fun o => (o.gameId, o.householdId))).Nodup) :
    rowCount os gid = distinctOwnerCount os gid := by
  have hinj := List.inj_on_of_nodup_map hnd
  have hosnd : os.Nodup := List.Nodup.of_map _ hnd
  have hfnd : (os.filter (fun o => o.gameId == gid)).Nodup :=
    hosnd.sublist (List.filter_sublist os)
  have hmapnd : ((os.filter (fun o => o.gameId == gid)).map
      (fun o => o.householdId)).Nodup := by
    refine List.Nodup.map_on ?_ hfnd
    intro o1 h1 o2 h2 hhh
    rcases List.mem_filter.mp h1 with ⟨hm1, hg1⟩
    rcases List.mem_filter.mp h2 with ⟨hm2, hg2⟩
    refine hinj hm1 hm2 ?_
    rw [beq_iff_eq] at hg1 hg2
    rw [hg1, hg2, hhh]
  rw [rowCount, distinctOwnerCount,
    dedupBy_id_eq_self _ [] hmapnd (by simp), List.length_map]

theorem mem_joinOwnedGames (ownerships : List Ownership)
    (fetched : List Game) (counts : String → Nat) (og : OwnedGame)
    (h : og ∈ joinOwnedGames ownerships fetched counts) :
    ∃ o ∈ ownerships, og.ownership = o ∧
      og.ownerCount = (if counts o.gameId = 0 then 1 else counts o.gameId) := by
  rcases List.mem_filterMap.mp h with ⟨o, ho, heq⟩
  rcases Option.map_eq_some'.mp heq with ⟨g, _, hg2⟩
  exact ⟨o, ho, by rw [← hg2], by rw [← hg2]⟩

theorem rowCount_ne_zero (os : List Ownership) (o : Ownership)
    (ho : o ∈ os) : rowCount os o.gameId ≠ 0 := by
  intro h0
  rw [rowCount, List.length_eq_zero] at h0
  have : o ∈ os.filter (fun o2 => o2.gameId == o.gameId) :=
    List.mem_filter.mpr ⟨ho, by simp⟩
  rw [h0] at this
  exact absurd this (List.not_mem_nil o)

/-- C1 counterexample: in an ownership collection where one household holds
two ownership rows for the same game (the duplicate state the concurrency
model admits), the emitted `ownerCount` is the number of ownership *rows*
(2), not the number of distinct household identifiers (1). -/
theorem ownerCount_not_distinct_households :
    ((getOwnedGames
        [⟨"o1", "g1", "hA", "Alpha", "u1", none⟩,
         ⟨"o3", "g1", "hA", "Alpha", "u2", none⟩]
        [⟨"g1", "Catan", none, 3, 4, some 90, none, some "13", none,
          some ["Strategy"], none, "u1"⟩]).map (fun og => og.ownerCount) =
      [2, 2]) ∧
    distinctOwnerCount
      [⟨"o1", "g1", "hA", "Alpha", "u1", none⟩,
       ⟨"o3", "g1", "hA", "Alpha", "u2", none⟩] "g1" = 1 := by
  decide

/-- C1 (amended): for every `OwnedGame` emitted by `getOwnedGames` or by
`getOwnedGamesByHousehold`, the `ownerCount` field equals the number of
ownership *rows* referencing that game's identity, computed over the global
ownership collection — so both views agree on the count for the same game;
moreover the row count coincides with the number of distinct owning
households whenever no household holds two ownership rows for the same
game (the documented no-duplicate-link invariant). -/
theorem ownedGames_ownerCount_eq_rowCount (os : List Ownership)
    (store : List Game) (householdId : String) :
    (∀ og ∈ getOwnedGames os store,
      og.ownerCount = rowCount os og.ownership.gameId) ∧
    (∀ og ∈ getOwnedGamesByHousehold os store householdId,
      og.ownerCount = rowCount os og.ownership.gameId) ∧
    ((os.map (fun o => (o.gameId, o.householdId))).Nodup →
      ∀ gid, rowCount os gid = distinctOwnerCount os gid) := by
  refine ⟨?_, ?_, fun hnd gid => rowCount_eq_distinctOwnerCount os gid hnd⟩
  · intro og hog
    rw [getOwnedGames] at hog
    by_cases h0 : os.length = 0
    · rw [if_pos h0] at hog
      exact absurd hog (List.not_mem_nil og)
    · rw [if_neg h0, mem_sortLe] at hog
      rcases mem_joinOwnedGames _ _ _ _ hog with ⟨o, ho, hown, hcnt⟩
      rw [hown, hcnt, if_neg (rowCount_ne_zero os o ho)]
  · intro og hog
    rw [getOwnedGamesByHousehold] at hog
    by_cases h0 : (getOwnershipsByHousehold os householdId).length = 0
    · rw [if_pos h0] at hog
      exact absurd hog (List.not_mem_nil og)
    · rw [if_neg h0, mem_sortLe] at hog
      rcases mem_joinOwnedGames _ _ _ _ hog with ⟨o, ho, hown, hcnt⟩
      have homem : o ∈ os := List.mem_of_mem_filter ho
      have hgid : o.gameId ∈ dedupBy (fun s => s) []
          ((getOwnershipsByHousehold os householdId).map
            (fun o2 => o2.gameId)) := by
        refine (mem_dedupBy_id _ _ _).mpr ⟨?_, by simp⟩
        exact List.mem_map.mpr ⟨o, ho, rfl⟩
      have hcong : os.filter (fun o2 =>
          (dedupBy (fun s => s) []
            ((getOwnershipsByHousehold os householdId).map
              (fun o3 => o3.gameId))).contains o2.gameId &&
          o2.gameId == o.gameId) =
          os.filter (fun o2 => o2.gameId == o.gameId) := by
        refine List.filter_congr ?_
        intro x _
        by_cases hx : x.gameId = o.gameId
        · simp only [hx, beq_self_eq_true, Bool.and_true]
          exact List.elem_iff.mpr hgid
        · simp [hx]
      rw [hown, hcnt]
      simp only [hcong]
      have hrc : (List.filter (fun o2 => o2.gameId == o.gameId) os).length =
          rowCount os o.gameId := rfl
      rw [hrc, if_neg (rowCount_ne_zero os o homem)]

theorem ownedGames_ownerCount_eq_rowCount_witness :
    ((⟨⟨"g1", "Catan", none, 3, 4, some 90, none, some "13", none,
        some ["Strategy"], none, "u1"⟩,
      ⟨"o1", "g1", "hA", "Alpha", "u1", none⟩, 2⟩ : OwnedGame) ∈
        getOwnedGames
          [⟨"o1", "g1", "hA", "Alpha", "u1", none⟩,
           ⟨"o2", "g1", "hB", "Beta", "u1", none⟩]
          [⟨"g1", "Catan", none, 3, 4, some 90, none, some "13", none,
            some ["Strategy"], none, "u1"⟩] ∧
      (2 : Nat) = rowCount
        [⟨"o1", "g1", "hA", "Alpha", "u1", none⟩,
         ⟨"o2", "g1", "hB", "Beta", "u1", none⟩] "g1") ∧
    ((⟨⟨"g1", "Catan", none, 3, 4, some 90, none, some "13", none,
        some ["Strategy"], none, "u1"⟩,
      ⟨"o1", "g1", "hA", "Alpha", "u1", none⟩, 2⟩ : OwnedGame) ∈
        getOwnedGamesByHousehold
          [⟨"o1", "g1", "hA", "Alpha", "u1", none⟩,
           ⟨"o2", "g1", "hB", "Beta", "u1", none⟩]
          [⟨"g1", "Catan", none, 3, 4, some 90, none, some "13", none,
            some ["Strategy"], none, "u1"⟩] "hA" ∧
      (2 : Nat) = rowCount
        [⟨"o1", "g1", "hA", "Alpha", "u1", none⟩,
         ⟨"o2", "g1", "hB", "Beta", "u1", none⟩] "g1") ∧
    (([⟨"o1", "g1", "hA", "Alpha", "u1", none⟩,
        ⟨"o2", "g1", "hB", "Beta", "u1", none⟩] : List Ownership).map
        (fun o => (o.gameId, o.householdId))).Nodup ∧
    rowCount
        [⟨"o1", "g1", "hA", "Alpha", "u1", none⟩,
         ⟨"o2", "g1", "hB", "Beta", "u1", none⟩] "g1" =
      distinctOwnerCount
        [⟨"o1", "g1", "hA", "Alpha", "u1", none⟩,
         ⟨"o2", "g1", "hB", "Beta", "u1", none⟩] "g1" :=
  ⟨⟨by decide,
    (ownedGames_ownerCount_eq_rowCount
      [⟨"o1", "g1", "hA", "Alpha", "u1", none⟩,
       ⟨"o2", "g1", "hB", "Beta", "u1", none⟩]
      [⟨"g1", "Catan", none, 3, 4, some 90, none, some "13", none,
        some ["Strategy"], none, "u1"⟩] "hA").1
      ⟨⟨"g1", "Catan", none, 3, 4, some 90, none, some "13", none,
        some ["Strategy"], none, "u1"⟩,
       ⟨"o1", "g1", "hA", "Alpha", "u1", none⟩, 2⟩ (by decide)⟩,
   ⟨by decide,
    (ownedGames_ownerCount_eq_rowCount
      [⟨"o1", "g1", "hA", "Alpha", "u1", none⟩,
       ⟨"o2", "g1", "hB", "Beta", "u1", none⟩]
      [⟨"g1", "Catan", none, 3, 4, some 90, none, some "13", none,
        some ["Strategy"], none, "u1"⟩] "hA").2.1
      ⟨⟨"g1", "Catan", none, 3, 4, some 90, none, some "13", none,
        some ["Strategy"], none, "u1"⟩,
       ⟨"o1", "g1", "hA", "Alpha", "u1", none⟩, 2⟩ (by decide)⟩,
   by decide,
   (ownedGames_ownerCount_eq_rowCount
      [⟨"o1", "g1", "hA", "Alpha", "u1", none⟩,
       ⟨"o2", "g1", "hB", "Beta", "u1", none⟩]
      [⟨"g1", "Catan", none, 3, 4, some 90, none, some "13", none,
        some ["Strategy"], none, "u1"⟩] "hA").2.2 (by decide) "g1"⟩

/-- The `Omit<Game, 'id'>` payload passed to game creation
(`createdAt` omitted). -/
structure GameData where
  name : String
  description : Option String
  minPlayers : Nat
  maxPlayers : Nat
  playTimeMinutes : Option Nat
  yearPublished : Option Nat
  bggId : Option String
  imageUrl : Option String
  categories : Option (List String)
  mechanics : Option (List String)
  createdBy : String
deriving DecidableEq, Repr

/-- Attach a document id to a game payload. -/
def GameData.toGame (gd : GameData) (id : String) : Game :=
  ⟨id, gd.name, gd.description, gd.minPlayers, gd.maxPlayers,
    gd.playTimeMinutes, gd.yearPublished, gd.bggId, gd.imageUrl,
    gd.categories, gd.mechanics, gd.createdBy⟩

/-- `gamesService.findGameByBggId` (games.ts:78-93): the first document
whose `bggId` equals the argument, or `none`. -/
def findGameByBggId (store : List Game) (bggId : String) : Option Game :=
  store.find? (fun g => g.bggId == some bggId)

/-- `gamesService.getOrCreateGame` (games.ts:96-120): when a (truthy)
`bggId` is provided and an existing game carries it, return that game with
`created = false` and leave the collection unchanged; otherwise insert the
payload as a new document with a fresh id and return it with
`created = true`.  The fresh document id is passed in as `freshId`. -/
def getOrCreateGame (store : List Game) (gd : GameData) (freshId : String) :
    (Game × Bool) × List Game :=
  match truthyStr gd.bggId with
  | some b =>
    match findGameByBggId store b with
    | some existing => ((existing, false), store)
    | none => ((gd.toGame freshId, true), store ++ [gd.toGame freshId])
  | none => ((gd.toGame freshId, true), store ++ [gd.toGame freshId])

/-- `ownershipService.householdOwnsGame` (ownership.ts:120-139): the first
ownership row matching both the game and the household, or `none`. -/
def householdOwnsGame (os : List Ownership) (gameId householdId : String) :
    Option Ownership :=
  os.find? (fun o => o.gameId == gameId && o.householdId == householdId)

/-- `ownershipService.addOwnership` (ownership.ts:21-48): append one
ownership document (the `notes` field is stored only when truthy); the
fresh document id is passed in as `freshOwnershipId`. -/
def addOwnership (os : List Ownership)
    (gameId householdId householdName addedBy : String)
    (notes : Option String) (freshOwnershipId : String) : List Ownership :=
  os ++ [⟨freshOwnershipId, gameId, householdId, householdName, addedBy,
    truthyStr notes⟩]

/-- The two Firestore collections touched by the add-game flow. -/
structure DB where
  games : List Game
  ownerships : List Ownership
deriving DecidableEq, Repr

/-- The duplicate-ownership error message thrown by `addGameWithOwnership`. -/
def dupOwnershipMsg : String := "Your household already owns this game"

/-- `addGameWithOwnership` from `useGames` (hook, lines 240-270): resolve
the game via `getOrCreateGame`, fail with the duplicate-ownership error if
the household already owns the resolved game, otherwise insert exactly one
ownership record.  The thrown error leaves the collections as they are at
the throw point. -/
def addGameWithOwnership (db : DB) (gd : GameData)
    (householdId householdName : String) (notes : Option String)
    (freshGameId freshOwnershipId : String) : Except String Unit × DB :=
  match householdOwnsGame db.ownerships
      ((getOrCreateGame db.games gd freshGameId).1.1).id householdId with
  | some _ =>
    (Except.error dupOwnershipMsg,
      ⟨(getOrCreateGame db.games gd freshGameId).2, db.ownerships⟩)
  | none =>
    (Except.ok (),
      ⟨(getOrCreateGame db.games gd freshGameId).2,
        addOwnership db.ownerships
          ((getOrCreateGame db.games gd freshGameId).1.1).id householdId
          householdName gd.createdBy notes freshOwnershipId⟩)

theorem getOrCreateGame_not_created (store : List Game) (gd : GameData)
    (freshId : String)
    (h : (getOrCreateGame store gd freshId).1.2 = false) :
    (getOrCreateGame store gd freshId).2 = store := by
  cases hb : truthyStr gd.bggId with
  | none => simp only [getOrCreateGame, hb] at h; exact Bool.noConfusion h
  | some b =>
    cases hf : findGameByBggId store b with
    | none =>
      simp only [getOrCreateGame, hb, hf] at h
      exact Bool.noConfusion h
    | some g => simp only [getOrCreateGame, hb, hf]

theorem getOrCreateGame_created (store : List Game) (gd : GameData)
    (freshId : String)
    (h : (getOrCreateGame store gd freshId).1.2 = true) :
    ((getOrCreateGame store gd freshId).1.1).id = freshId := by
  cases hb : truthyStr gd.bggId with
  | none => simp only [getOrCreateGame, hb]; rfl
  | some b =>
    cases hf : findGameByBggId store b with
    | none => simp only [getOrCreateGame, hb, hf]; rfl
    | some g =>
      simp only [getOrCreateGame, hb, hf] at h
      exact Bool.noConfusion h

/-- C4: under fresh document ids, the add-game-with-ownership flow fails
with the duplicate-ownership error exactly when the target household
already has an ownership row for the resolved game identity; on that
failure the stored state is unchanged, and otherwise exactly one ownership
record linking the resolved game to the household is appended. -/
theorem addGameWithOwnership_duplicate_guard (db : DB) (gd : GameData)
    (householdId householdName : String) (notes : Option String)
    (freshGameId freshOwnershipId : String)
    (hfresh : ∀ o ∈ db.ownerships, o.gameId ≠ freshGameId) :
    ((addGameWithOwnership db gd householdId householdName notes freshGameId
        freshOwnershipId).1 = Except.error dupOwnershipMsg ↔
      ∃ o ∈ db.ownerships,
        o.gameId = ((getOrCreateGame db.games gd freshGameId).1.1).id ∧
        o.householdId = householdId) ∧
    ((addGameWithOwnership db gd householdId householdName notes freshGameId
        freshOwnershipId).1 = Except.error dupOwnershipMsg →
      (addGameWithOwnership db gd householdId householdName notes
        freshGameId freshOwnershipId).2 = db) ∧
    ((addGameWithOwnership db gd householdId householdName notes freshGameId
        freshOwnershipId).1 = Except.ok () →
      (addGameWithOwnership db gd householdId householdName notes
        freshGameId freshOwnershipId).2 =
        ⟨(getOrCreateGame db.games gd freshGameId).2,
          db.ownerships ++
            [⟨freshOwnershipId,
              ((getOrCreateGame db.games gd freshGameId).1.1).id,
              householdId, householdName, gd.createdBy,
              truthyStr notes⟩]⟩) := by
  cases hfind : householdOwnsGame db.ownerships
      ((getOrCreateGame db.games gd freshGameId).1.1).id householdId with
  | none =>
    refine ⟨?_, ?_, ?_⟩
    · rw [addGameWithOwnership, hfind]
      simp only [reduceCtorEq, false_iff]
      rintro ⟨o, ho, h1, h2⟩
      have := List.find?_eq_none.mp hfind o ho
      simp [h1, h2] at this
    · rw [addGameWithOwnership, hfind]
      intro h
      simp at h
    · rw [addGameWithOwnership, hfind]
      intro _
      rfl
  | some o2 =>
    refine ⟨?_, ?_, ?_⟩
    · rw [addGameWithOwnership, hfind]
      simp only [true_iff]
      have hp := List.find?_some hfind
      have hm := List.mem_of_find?_eq_some hfind
      simp only [Bool.and_eq_true, beq_iff_eq] at hp
      exact ⟨o2, hm, hp.1, hp.2⟩
    · rw [addGameWithOwnership, hfind]
      intro _
      have hm := List.mem_of_find?_eq_some hfind
      have hp := List.find?_some hfind
      simp only [Bool.and_eq_true, beq_iff_eq] at hp
      have hcf : (getOrCreateGame db.games gd freshGameId).1.2 = false := by
        cases hc : (getOrCreateGame db.games gd freshGameId).1.2 with
        | false => rfl
        | true =>
          have hid := getOrCreateGame_created db.games gd freshGameId hc
          exact absurd (hp.1.trans hid) (hfresh o2 hm)
      rw [getOrCreateGame_not_created db.games gd freshGameId hcf]
    · rw [addGameWithOwnership, hfind]
      intro h
      simp at h

theorem addGameWithOwnership_duplicate_guard_witness :
    (∀ o ∈ ([⟨"o1", "g1", "hA", "Alpha", "u1", none⟩] : List Ownership),
      o.gameId ≠ "gNew") ∧
    (addGameWithOwnership
      ⟨[⟨"g1", "Catan", none, 3, 4, some 90, none, some "13", none,
          some ["Strategy"], none, "u1"⟩],
        [⟨"o1", "g1", "hA", "Alpha", "u1", none⟩]⟩
      ⟨"Catan", none, 3, 4, some 90, none, some "13", none,
        some ["Strategy"], none, "u2"⟩
      "hA" "Alpha" none "gNew" "oNew").1 = Except.error dupOwnershipMsg ∧
    (addGameWithOwnership
      ⟨[⟨"g1", "Catan", none, 3, 4, some 90, none, some "13", none,
          some ["Strategy"], none, "u1"⟩],
        [⟨"o1", "g1", "hA", "Alpha", "u1", none⟩]⟩
      ⟨"Catan", none, 3, 4, some 90, none, some "13", none,
        some ["Strategy"], none, "u2"⟩
      "hA" "Alpha" none "gNew" "oNew").2 =
      ⟨[⟨"g1", "Catan", none, 3, 4, some 90, none, some "13", none,
          some ["Strategy"], none, "u1"⟩],
        [⟨"o1", "g1", "hA", "Alpha", "u1", none⟩]⟩ :=
  ⟨by decide, rfl,
    (addGameWithOwnership_duplicate_guard
      ⟨[⟨"g1", "Catan", none, 3, 4, some 90, none, some "13", none,
          some ["Strategy"], none, "u1"⟩],
        [⟨"o1", "g1", "hA", "Alpha", "u1", none⟩]⟩
      ⟨"Catan", none, 3, 4, some 90, none, some "13", none,
        some ["Strategy"], none, "u2"⟩
      "hA" "Alpha" none "gNew" "oNew" (by decide)).2.1 rfl⟩

/-- The `preferencesFilter` selector of the game-night filter state. -/
inductive PrefsFilter
  | all
  | liked
  | favorites
deriving DecidableEq, Repr

/-- `GameNightFilterState` from the game-night page. -/
structure GameNightFilterState where
  playerCount : Option Nat
  hostHouseholdId : Option String
  additionalHouseholdIds : List String
  preferencesFilter : PrefsFilter
deriving DecidableEq, Repr

/-- The dedup loop of the `filteredGames` memo (GameNightPage, lines 58-66):
collapse the owned-game list to one entry per distinct game id via a
keep-first `Map` insertion, preserving insertion order. -/
def dedupeGames (games : List OwnedGame) : List OwnedGame :=
  dedupBy (fun og => og.game.id) [] games

/-- The player-count stage of the picker pool (GameNightPage, lines 68-75);
the `if (filters.playerCount)` guard makes 0 (and `undefined`) impose no
constraint. -/
def pickerPlayerCountStage (playerCount : Option Nat)
    (l : List OwnedGame) : List OwnedGame :=
  match playerCount with
  | none => l
  | some pc =>
    if pc = 0 then l
    else l.filter (fun game =>
      pc ≥ game.game.minPlayers && pc ≤ game.game.maxPlayers)

/-- The household stage of the picker pool (GameNightPage, lines 77-86):
when a (truthy) host household is chosen, keep games owned by the host or
one of the additional households. -/
def pickerHouseholdStage (hostHouseholdId : Option String)
    (additionalHouseholdIds : List String) (l : List OwnedGame) :
    List OwnedGame :=
  match hostHouseholdId with
  | none => l
  | some h =>
    if h = "" then l
    else l.filter (fun game =>
      (h :: additionalHouseholdIds).contains game.ownership.householdId)

/-- The preferences stage of the picker pool (GameNightPage, lines 88-100):
keep liked games, favorited games, or everything. -/
def pickerPrefsStage (preferencesFilter : PrefsFilter)
    (getPreference : String → Option PrefData) (l : List OwnedGame) :
    List OwnedGame :=
  match preferencesFilter with
  | PrefsFilter.all => l
  | PrefsFilter.liked =>
    l.filter (fun game =>
      reactionOf (getPreference game.game.id) == some Reaction.like)
  | PrefsFilter.favorites =>
    l.filter (fun game => favOf (getPreference game.game.id))

/-- The `filteredGames` memo of the game-night page (lines 57-103): dedup by
game id first, then the player-count, household and preference filters. -/
def gameNightFilteredGames (games : List OwnedGame)
    (filters : GameNightFilterState)
    (getPreference : String → Option PrefData) : List OwnedGame :=
  pickerPrefsStage filters.preferencesFilter getPreference
    (pickerHouseholdStage filters.hostHouseholdId
      filters.additionalHouseholdIds
      (pickerPlayerCountStage filters.playerCount (dedupeGames games)))

theorem pickerPlayerCountStage_sublist (playerCount : Option Nat)
    (l : List OwnedGame) : (pickerPlayerCountStage playerCount l).Sublist l := by
  cases playerCount with
  | none => exact List.Sublist.refl l
  | some pc =>
    rw [pickerPlayerCountStage]
    by_cases h : pc = 0
    · rw [if_pos h]
    · rw [if_neg h]
      exact List.filter_sublist l

theorem pickerHouseholdStage_sublist (hostHouseholdId : Option String)
    (additionalHouseholdIds : List String) (l : List OwnedGame) :
    (pickerHouseholdStage hostHouseholdId additionalHouseholdIds l).Sublist l := by
  cases hostHouseholdId with
  | none => exact List.Sublist.refl l
  | some h =>
    rw [pickerHouseholdStage]
    by_cases h0 : h = ""
    · rw [if_pos h0]
    · rw [if_neg h0]
      exact List.filter_sublist l

theorem pickerPrefsStage_sublist (preferencesFilter : PrefsFilter)
    (getPreference : String → Option PrefData) (l : List OwnedGame) :
    (pickerPrefsStage preferencesFilter getPreference l).Sublist l := by
  cases preferencesFilter with
  | all => exact List.Sublist.refl l
  | liked => exact List.filter_sublist l
  | favorites => exact List.filter_sublist l

/-- C5: the picker's candidate pool is deduplicated by game identity: the
dedup stage keeps exactly one entry per distinct game id of the input —
the first occurrence in input order — so a game owned by several
households contributes one pool entry, not one per ownership; every
filtered pool still has pairwise-distinct game ids, and in the
initial filter state (no player count, no host household, preferences
'all') the pool is exactly the deduplicated list. -/
theorem picker_pool_dedup (games : List OwnedGame)
    (filters : GameNightFilterState)
    (getPreference : String → Option PrefData) :
    ((dedupeGames games).map (fun og => og.game.id)).Nodup ∧
    (∀ og ∈ games,
      og.game.id ∈ (dedupeGames games).map (fun og2 => og2.game.id)) ∧
    (∀ og ∈ dedupeGames games,
      games.find? (fun og2 => og2.game.id == og.game.id) = some og) ∧
    ((gameNightFilteredGames games filters getPreference).map
      (fun og => og.game.id)).Nodup ∧
    gameNightFilteredGames games
      (GameNightFilterState.mk none none [] PrefsFilter.all) getPreference =
      dedupeGames games := by
  refine ⟨nodup_map_key_dedupBy _ [] games, ?_, ?_, ?_, rfl⟩
  · intro og hog
    exact (mem_map_key_dedupBy (fun og2 => og2.game.id) [] games
      og.game.id).mpr ⟨List.mem_map.mpr ⟨og, hog, rfl⟩, by simp⟩
  · intro og hog
    rw [dedupeGames] at hog
    exact find?_of_mem_dedupBy (fun og2 => og2.game.id) [] games og hog
  · have hsub : (gameNightFilteredGames games filters getPreference).Sublist
        (dedupeGames games) :=
      (pickerPrefsStage_sublist _ _ _).trans
        ((pickerHouseholdStage_sublist _ _ _).trans
          (pickerPlayerCountStage_sublist _ _))
    exact (nodup_map_key_dedupBy (fun og => og.game.id) [] games).sublist
      (hsub.map (fun og => og.game.id))

theorem picker_pool_dedup_witness :
    ((⟨⟨"g1", "Catan", none, 3, 4, some 90, none, some "13", none,
        some ["Strategy"], none, "u1"⟩,
      ⟨"o2", "g1", "hB", "Beta", "u1", none⟩, 2⟩ : OwnedGame).game.id ∈
      (dedupeGames
        [⟨⟨"g1", "Catan", none, 3, 4, some 90, none, some "13", none,
            some ["Strategy"], none, "u1"⟩,
          ⟨"o1", "g1", "hA", "Alpha", "u1", none⟩, 2⟩,
         ⟨⟨"g1", "Catan", none, 3, 4, some 90, none, some "13", none,
            some ["Strategy"], none, "u1"⟩,
          ⟨"o2", "g1", "hB", "Beta", "u1", none⟩, 2⟩]).map
        (fun og2 => og2.game.id)) ∧
    ([⟨⟨"g1", "Catan", none, 3, 4, some 90, none, some "13", none,
          some ["Strategy"], none, "u1"⟩,
        ⟨"o1", "g1", "hA", "Alpha", "u1", none⟩, 2⟩,
       ⟨⟨"g1", "Catan", none, 3, 4, some 90, none, some "13", none,
          some ["Strategy"], none, "u1"⟩,
        ⟨"o2", "g1", "hB", "Beta", "u1", none⟩, 2⟩] : List OwnedGame).find?
      (fun og2 => og2.game.id ==
        (⟨⟨"g1", "Catan", none, 3, 4, some 90, none, some "13", none,
            some ["Strategy"], none, "u1"⟩,
          ⟨"o1", "g1", "hA", "Alpha", "u1", none⟩, 2⟩ : OwnedGame).game.id) =
      some ⟨⟨"g1", "Catan", none, 3, 4, some 90, none, some "13", none,
          some ["Strategy"], none, "u1"⟩,
        ⟨"o1", "g1", "hA", "Alpha", "u1", none⟩, 2⟩ :=
  ⟨(picker_pool_dedup
      [⟨⟨"g1", "Catan", none, 3, 4, some 90, none, some "13", none,
          some ["Strategy"], none, "u1"⟩,
        ⟨"o1", "g1", "hA", "Alpha", "u1", none⟩, 2⟩,
       ⟨⟨"g1", "Catan", none, 3, 4, some 90, none, some "13", none,
          some ["Strategy"], none, "u1"⟩,
        ⟨"o2", "g1", "hB", "Beta", "u1", none⟩, 2⟩]
      (GameNightFilterState.mk none none [] PrefsFilter.all)
      (fun _ => none)).2.1 _ (by decide),
   (picker_pool_dedup
      [⟨⟨"g1", "Catan", none, 3, 4, some 90, none, some "13", none,
          some ["Strategy"], none, "u1"⟩,
        ⟨"o1", "g1", "hA", "Alpha", "u1", none⟩, 2⟩,
       ⟨⟨"g1", "Catan", none, 3, 4, some 90, none, some "13", none,
          some ["Strategy"], none, "u1"⟩,
        ⟨"o2", "g1", "hB", "Beta", "u1", none⟩, 2⟩]
      (GameNightFilterState.mk none none [] PrefsFilter.all)
      (fun _ => none)).2.2.1 _ (by decide)⟩

/-- `handleQuickPick` (GameNightPage, lines 106-112): no-op on an empty
pool, otherwise select the game at index `Math.floor(Math.random() * n)`;
`Math.random()` is modelled as the rational `num / den` in `[0, 1)`, so the
drawn index is `num * n / den` in natural-number arithmetic.  `none` means
no selection is made. -/
def handleQuickPick (filteredGames : List OwnedGame) (num den : Nat) :
    Option OwnedGame :=
  if filteredGames.length = 0 then none
  else filteredGames.get? (num * filteredGames.length / den)

/-- `handleSpin` (GameNightPage, lines 115-118): no-op on an empty pool or
while already spinning, otherwise start spinning. -/
def handleSpin (filteredGames : List OwnedGame) (isSpinning : Bool) : Bool :=
  if filteredGames.length = 0 || isSpinning then isSpinning else true

/-- C9: with an empty candidate pool both quick pick and spin are no-ops
(no selection, spin state unchanged, no error); with a non-empty pool the
randomly drawn quick-pick index is in bounds for every random value in
`[0, 1)`, so the selected game is an element of the pool. -/
theorem picker_empty_noop_and_in_bounds (pool : List OwnedGame)
    (num den : Nat) (b : Bool) :
    (pool = [] → handleQuickPick pool num den = none ∧
      handleSpin pool b = b) ∧
    (pool ≠ [] → 0 < den → num < den →
      ∃ g ∈ pool, handleQuickPick pool num den = some g) := by
  constructor
  · rintro rfl
    constructor
    · rfl
    · rw [handleSpin]
      simp
  · intro hne hden hnum
    have hn : 0 < pool.length := List.length_pos.mpr hne
    have hidx : num * pool.length / den < pool.length := by
      refine (Nat.div_lt_iff_lt_mul hden).mpr ?_
      calc num * pool.length < den * pool.length :=
            (Nat.mul_lt_mul_right hn).mpr hnum
        _ = pool.length * den := Nat.mul_comm den pool.length
    refine ⟨pool.get ⟨num * pool.length / den, hidx⟩, List.get_mem _ _ _, ?_⟩
    rw [handleQuickPick,
      if_neg (fun h0 => hne (List.length_eq_zero.mp h0))]
    exact List.get?_eq_get hidx

theorem picker_empty_noop_and_in_bounds_witness :
    (handleQuickPick [] 1 2 = none ∧ handleSpin [] false = false) ∧
    ∃ g ∈ ([⟨⟨"g1", "Catan", none, 3, 4, some 90, none, some "13", none,
        some ["Strategy"], none, "u1"⟩,
      ⟨"o1", "g1", "hA", "Alpha", "u1", none⟩, 2⟩] : List OwnedGame),
      handleQuickPick
        [⟨⟨"g1", "Catan", none, 3, 4, some 90, none, some "13", none,
            some ["Strategy"], none, "u1"⟩,
          ⟨"o1", "g1", "hA", "Alpha", "u1", none⟩, 2⟩] 1 2 = some g :=
  ⟨(picker_empty_noop_and_in_bounds [] 1 2 false).1 rfl,
   (picker_empty_noop_and_in_bounds
      [⟨⟨"g1", "Catan", none, 3, 4, some 90, none, some "13", none,
          some ["Strategy"], none, "u1"⟩,
        ⟨"o1", "g1", "hA", "Alpha", "u1", none⟩, 2⟩] 1 2 false).2
      (by decide) (by decide) (by decide)⟩

end FGL
